import Mathlib

/-!
Shallow embedding of the protocol boundary layer of the arikawa repository:

* `discord/command.go` — the application-command schema codec (polymorphic
  option trees, two-phase discriminant dispatch, structural validation, and
  the generated JSON marshalers);
* `internal/wsutil/conn.go` — the default websocket `Conn` (dial, read loop,
  close classification);
* the session lifecycle (`Session.Close`, `sessionState`).

JSON wire data is modelled as a `Json` value tree; Go's `encoding/json`
struct (un)marshaling is modelled field by field with Go's zero-value
semantics for absent fields.  Machine integers of the source (`uint`
discriminants, `int64` snowflakes) are modelled as `Nat`/`Int`; none of the
modelled code performs arithmetic that could overflow.  Identifier types
(snowflakes) are opaque integer-like tokens modelled as `Nat`.
`float64` choice values are carried opaquely (no arithmetic is performed on
them), so an integer carrier is used for them.
-/

/-- A JSON value.  Objects are ordered lists of key/value fields, which is
what both the Go encoder (field declaration order) and decoder (key lookup)
observe. -/
inductive Json where
  | jnull : Json
  | jbool : Bool → Json
  | jnum : Int → Json
  | jstr : String → Json
  | jarr : List Json → Json
  | jobj : List (String × Json) → Json
deriving Repr

/-- The field list of a JSON object. -/
abbrev JObj := List (String × Json)

/-- Key lookup in a JSON object, first match wins.  Well-formed wire objects
have pairwise distinct keys, so this agrees with Go's decoder on them. -/
def jlookup : JObj → String → Option Json
  | [], _ => none
  | (k, v) :: rest, key => if k = key then some v else jlookup rest key

/-- A value found by `jlookup` is structurally smaller than the field list
holding it (used for termination of the recursive decoder). -/
theorem jlookup_sizeOf {fields : JObj} {k : String} {v : Json}
    (h : jlookup fields k = some v) : sizeOf v < sizeOf fields := by
  induction fields with
  | nil => simp [jlookup] at h
  | cons p rest ih =>
    obtain ⟨k0, v0⟩ := p
    simp only [jlookup] at h
    split at h
    · cases h; simp; omega
    · have := ih h
      simp
      omega

/-! ## Domain model: the structs of `discord/command.go`

Field names follow the Go structs (`OptionName`, `Description`, `Required`,
…) in lowerCamelCase. -/

/-- StringChoice (command.go): a pair of string key to a string. -/
structure StringChoice where
  name : String
  value : String
deriving DecidableEq, Repr

/-- IntegerChoice (command.go): a pair of string key to an integer. -/
structure IntegerChoice where
  name : String
  value : Int
deriving DecidableEq, Repr

/-- BooleanChoice (command.go): a pair of string key to a boolean. -/
structure BooleanChoice where
  name : String
  value : Bool
deriving DecidableEq, Repr

/-- UserChoice (command.go): a pair of string key to a user ID
(serialized as a numeric string, Go tag `value,string`). -/
structure UserChoice where
  name : String
  value : Nat
deriving DecidableEq, Repr

/-- ChannelChoice (command.go): a pair of string key to a channel ID. -/
structure ChannelChoice where
  name : String
  value : Nat
deriving DecidableEq, Repr

/-- RoleChoice (command.go): a pair of string key to a role ID. -/
structure RoleChoice where
  name : String
  value : Nat
deriving DecidableEq, Repr

/-- MentionableChoice (command.go): a pair of string key to a snowflake. -/
structure MentionableChoice where
  name : String
  value : Nat
deriving DecidableEq, Repr

/-- NumberChoice (command.go): a pair of string key to a float64 value.
The float payload is carried opaquely by an integer (no arithmetic is
modelled on it). -/
structure NumberChoice where
  name : String
  value : Int
deriving DecidableEq, Repr

/-- StringOption (command.go). -/
structure StringOption where
  optionName : String
  description : String
  required : Bool
  choices : List StringChoice
  autocomplete : Bool
deriving DecidableEq, Repr

/-- IntegerOption (command.go). -/
structure IntegerOption where
  optionName : String
  description : String
  required : Bool
  choices : List IntegerChoice
deriving DecidableEq, Repr

/-- BooleanOption (command.go). -/
structure BooleanOption where
  optionName : String
  description : String
  required : Bool
  choices : List BooleanChoice
deriving DecidableEq, Repr

/-- UserOption (command.go). -/
structure UserOption where
  optionName : String
  description : String
  required : Bool
  choices : List UserChoice
deriving DecidableEq, Repr

/-- ChannelOption (command.go); ChannelTypes restricts acceptable channel
kinds (`ChannelType` is an enumerated unsigned integer). -/
structure ChannelOption where
  optionName : String
  description : String
  required : Bool
  choices : List ChannelChoice
  channelTypes : List Nat
deriving DecidableEq, Repr

/-- RoleOption (command.go). -/
structure RoleOption where
  optionName : String
  description : String
  required : Bool
  choices : List RoleChoice
deriving DecidableEq, Repr

/-- MentionableOption (command.go). -/
structure MentionableOption where
  optionName : String
  description : String
  required : Bool
  choices : List MentionableChoice
deriving DecidableEq, Repr

/-- NumberOption (command.go). -/
structure NumberOption where
  optionName : String
  description : String
  required : Bool
  choices : List NumberChoice
deriving DecidableEq, Repr

/-- UnknownCommandOption (command.go): name and discriminant from phase-one
parsing, plus the preserved raw JSON blob (`u.raw`, exposed by `Raw()`),
copied verbatim when the discriminant is not recognized. -/
structure UnknownOpt where
  optionName : String
  optionType : Nat
  raw : Json
deriving Repr

/-- CommandOptionValue (command.go): the interface satisfied by every leaf
option type and by `UnknownCommandOption` (all of them implement `_val()`);
`SubcommandOption` and `SubcommandGroupOption` do not satisfy it. -/
inductive OptionValue where
  | str : StringOption → OptionValue
  | int : IntegerOption → OptionValue
  | bool : BooleanOption → OptionValue
  | user : UserOption → OptionValue
  | channel : ChannelOption → OptionValue
  | role : RoleOption → OptionValue
  | mention : MentionableOption → OptionValue
  | num : NumberOption → OptionValue
  | unknown : UnknownOpt → OptionValue
deriving Repr

/-- SubcommandOption (command.go): its `Options` hold command option
values. -/
structure SubcommandOption where
  optionName : String
  description : String
  required : Bool
  options : List OptionValue
deriving Repr

/-- SubcommandGroupOption (command.go): its `Subcommands` hold subcommand
options only. -/
structure SubcommandGroupOption where
  optionName : String
  description : String
  required : Bool
  subcommands : List SubcommandOption
deriving Repr

/-- CommandOption (command.go): the union of every concrete option type. -/
inductive CommandOption where
  | sub : SubcommandOption → CommandOption
  | group : SubcommandGroupOption → CommandOption
  | value : OptionValue → CommandOption
deriving Repr

/-- Decode errors: `malformed` models a plain (possibly wrapped)
`encoding/json` error; `typeMismatch` models `commandTypeCheckError`
(command.go) with its `name`, `got` and `expect` fields. -/
inductive DecError where
  | malformed : String → DecError
  | typeMismatch : String → CommandOption → String → DecError
deriving Repr

/-- Result of `UnknownCommandOption.UnmarshalJSON`: the phase-one name and
discriminant together with the materialized concrete variant (`u.data`). -/
structure DecodedUnknown where
  optionName : String
  optionType : Nat
  data : CommandOption
deriving Repr

/-- Command (command.go).  `noDefaultPermission` is the local,
polarity-inverted form of the wire's `default_permission` flag; `type`
is the invocation-source discriminant (`CommandType`). -/
structure Command where
  id : Nat
  type : Nat
  appID : Nat
  guildID : Nat
  name : String
  description : String
  options : List CommandOption
  noDefaultPermission : Bool
  version : Nat
deriving Repr

/-! ## Field getters

Go's `encoding/json` semantics for a struct field: an absent key (or JSON
null) leaves the field at its zero value; a present key with an
incompatible value is an unmarshal error. -/

/-- Read a `string` field. -/
def getString (fields : JObj) (k : String) : Except DecError String :=
  match jlookup fields k with
  | none => .ok ""
  | some .jnull => .ok ""
  | some (.jstr s) => .ok s
  | some _ => .error (.malformed (k ++ ": cannot unmarshal into string"))

/-- Read a `bool` field. -/
def getBool (fields : JObj) (k : String) : Except DecError Bool :=
  match jlookup fields k with
  | none => .ok false
  | some .jnull => .ok false
  | some (.jbool b) => .ok b
  | some _ => .error (.malformed (k ++ ": cannot unmarshal into bool"))

/-- Read an `int` field. -/
def getInt (fields : JObj) (k : String) : Except DecError Int :=
  match jlookup fields k with
  | none => .ok 0
  | some .jnull => .ok 0
  | some (.jnum n) => .ok n
  | some _ => .error (.malformed (k ++ ": cannot unmarshal into int"))

/-- Read a `uint` field (a negative wire number is an unmarshal error). -/
def getNat (fields : JObj) (k : String) : Except DecError Nat :=
  match jlookup fields k with
  | none => .ok 0
  | some .jnull => .ok 0
  | some (.jnum n) =>
    if n < 0 then .error (.malformed (k ++ ": cannot unmarshal into uint"))
    else .ok n.toNat
  | some _ => .error (.malformed (k ++ ": cannot unmarshal into uint"))

/-- Read a snowflake identifier field.  Identifier types are opaque
integer-like tokens whose concrete wire form lives outside these sources;
they are modelled as non-negative JSON numbers. -/
def getSnowflake (fields : JObj) (k : String) : Except DecError Nat :=
  match jlookup fields k with
  | none => .ok 0
  | some .jnull => .ok 0
  | some (.jnum n) =>
    if n < 0 then .error (.malformed (k ++ ": invalid snowflake"))
    else .ok n.toNat
  | some _ => .error (.malformed (k ++ ": cannot unmarshal into snowflake"))

/-- Read an array-valued field and decode each element; an absent key or
JSON null is Go's nil slice. -/
def getArrWith (fields : JObj) (k : String)
    (dec : Json → Except DecError α) : Except DecError (List α) :=
  match jlookup fields k with
  | none => .ok []
  | some .jnull => .ok []
  | some (.jarr xs) => xs.mapM dec
  | some _ => .error (.malformed (k ++ ": cannot unmarshal into array"))

/-! ## Choice and leaf-option decoders (phase two for leaf variants) -/

/-- Decode one StringChoice object. -/
def decodeStringChoice : Json → Except DecError StringChoice
  | .jobj fields => do
    let name ← getString fields "name"
    let value ← getString fields "value"
    pure ⟨name, value⟩
  | _ => .error (.malformed "choice: cannot unmarshal into object")

/-- Decode one IntegerChoice object. -/
def decodeIntegerChoice : Json → Except DecError IntegerChoice
  | .jobj fields => do
    let name ← getString fields "name"
    let value ← getInt fields "value"
    pure ⟨name, value⟩
  | _ => .error (.malformed "choice: cannot unmarshal into object")

/-- Decode one BooleanChoice object. -/
def decodeBooleanChoice : Json → Except DecError BooleanChoice
  | .jobj fields => do
    let name ← getString fields "name"
    let value ← getBool fields "value"
    pure ⟨name, value⟩
  | _ => .error (.malformed "choice: cannot unmarshal into object")

/-- Decode one snowflake-valued choice object (User, Channel, Role and
Mentionable choices all carry a `value,string` snowflake). -/
def decodeSnowflakeChoice : Json → Except DecError (String × Nat)
  | .jobj fields => do
    let name ← getString fields "name"
    let value ← getSnowflake fields "value"
    pure ⟨name, value⟩
  | _ => .error (.malformed "choice: cannot unmarshal into object")

/-- Decode one NumberChoice object. -/
def decodeNumberChoice : Json → Except DecError NumberChoice
  | .jobj fields => do
    let name ← getString fields "name"
    let value ← getInt fields "value"
    pure ⟨name, value⟩
  | _ => .error (.malformed "choice: cannot unmarshal into object")

/-- Decode a `channel_types` element (an enumerated unsigned integer). -/
def decodeChannelType : Json → Except DecError Nat
  | .jnum n =>
    if n < 0 then .error (.malformed "channel_types: cannot unmarshal into uint")
    else .ok n.toNat
  | _ => .error (.malformed "channel_types: cannot unmarshal into uint")

/-- Default unmarshal of StringOption (command.go has no custom decoder for
it). -/
def decodeStringOpt (fields : JObj) : Except DecError StringOption := do
  let name ← getString fields "name"
  let desc ← getString fields "description"
  let req ← getBool fields "required"
  let choices ← getArrWith fields "choices" decodeStringChoice
  let auto ← getBool fields "autocomplete"
  pure ⟨name, desc, req, choices, auto⟩

/-- Default unmarshal of IntegerOption. -/
def decodeIntegerOpt (fields : JObj) : Except DecError IntegerOption := do
  let name ← getString fields "name"
  let desc ← getString fields "description"
  let req ← getBool fields "required"
  let choices ← getArrWith fields "choices" decodeIntegerChoice
  pure ⟨name, desc, req, choices⟩

/-- Default unmarshal of BooleanOption. -/
def decodeBooleanOpt (fields : JObj) : Except DecError BooleanOption := do
  let name ← getString fields "name"
  let desc ← getString fields "description"
  let req ← getBool fields "required"
  let choices ← getArrWith fields "choices" decodeBooleanChoice
  pure ⟨name, desc, req, choices⟩

/-- Default unmarshal of UserOption. -/
def decodeUserOpt (fields : JObj) : Except DecError UserOption := do
  let name ← getString fields "name"
  let desc ← getString fields "description"
  let req ← getBool fields "required"
  let choices ← getArrWith fields "choices" decodeSnowflakeChoice
  pure ⟨name, desc, req, choices.map (fun p => ⟨p.1, p.2⟩)⟩

/-- Default unmarshal of ChannelOption. -/
def decodeChannelOpt (fields : JObj) : Except DecError ChannelOption := do
  let name ← getString fields "name"
  let desc ← getString fields "description"
  let req ← getBool fields "required"
  let choices ← getArrWith fields "choices" decodeSnowflakeChoice
  let kinds ← getArrWith fields "channel_types" decodeChannelType
  pure ⟨name, desc, req, choices.map (fun p => ⟨p.1, p.2⟩), kinds⟩

/-- Default unmarshal of RoleOption. -/
def decodeRoleOpt (fields : JObj) : Except DecError RoleOption := do
  let name ← getString fields "name"
  let desc ← getString fields "description"
  let req ← getBool fields "required"
  let choices ← getArrWith fields "choices" decodeSnowflakeChoice
  pure ⟨name, desc, req, choices.map (fun p => ⟨p.1, p.2⟩)⟩

/-- Default unmarshal of MentionableOption. -/
def decodeMentionableOpt (fields : JObj) : Except DecError MentionableOption := do
  let name ← getString fields "name"
  let desc ← getString fields "description"
  let req ← getBool fields "required"
  let choices ← getArrWith fields "choices" decodeSnowflakeChoice
  pure ⟨name, desc, req, choices.map (fun p => ⟨p.1, p.2⟩)⟩

/-- Default unmarshal of NumberOption. -/
def decodeNumberOpt (fields : JObj) : Except DecError NumberOption := do
  let name ← getString fields "name"
  let desc ← getString fields "description"
  let req ← getBool fields "required"
  let choices ← getArrWith fields "choices" decodeNumberChoice
  pure ⟨name, desc, req, choices⟩

/-! ## Structural validation helpers -/

/-- The Go type assertion `data.(CommandOptionValue)`: leaf option types and
`UnknownCommandOption` satisfy it, `SubcommandOption` and
`SubcommandGroupOption` do not. -/
def asOptionValue : CommandOption → Option OptionValue
  | .value v => some v
  | _ => none

/-- The assertion loop of `SubcommandOption.UnmarshalJSON`: every decoded
child must satisfy the leaf-value capability; the first one that does not
yields a `commandTypeCheckError` carrying its name, its decoded data and
the expected capability name. -/
def assertValues : List DecodedUnknown → Except DecError (List OptionValue)
  | [] => .ok []
  | u :: rest =>
    match asOptionValue u.data with
    | none => .error (.typeMismatch u.optionName u.data "CommandOptionValue")
    | some v => do
      let vs ← assertValues rest
      pure (v :: vs)

/-! ## The recursive option decoder

`UnknownCommandOption.UnmarshalJSON` is two-phase: phase one reads the name
and discriminant; phase two re-parses the same object into the concrete
variant, recursing into children (command.go lines 196-236).  The Go
`switch` on the discriminant is modelled by an if-chain with identical
semantics. -/

/-- The leaf arms of the discriminant switch in
`UnknownCommandOption.UnmarshalJSON` (discriminants 3-10 materialize a leaf
variant; any other discriminant reaching this point is unrecognized and
captures the raw object, preserving the bytes, instead of failing). -/
def decodeLeaf (fields : JObj) (name : String) (ty : Nat) :
    Except DecError DecodedUnknown :=
  if ty = 3 then do
    let s ← decodeStringOpt fields
    pure ⟨name, ty, .value (.str s)⟩
  else if ty = 4 then do
    let i ← decodeIntegerOpt fields
    pure ⟨name, ty, .value (.int i)⟩
  else if ty = 5 then do
    let b ← decodeBooleanOpt fields
    pure ⟨name, ty, .value (.bool b)⟩
  else if ty = 6 then do
    let u ← decodeUserOpt fields
    pure ⟨name, ty, .value (.user u)⟩
  else if ty = 7 then do
    let c ← decodeChannelOpt fields
    pure ⟨name, ty, .value (.channel c)⟩
  else if ty = 8 then do
    let r ← decodeRoleOpt fields
    pure ⟨name, ty, .value (.role r)⟩
  else if ty = 9 then do
    let m ← decodeMentionableOpt fields
    pure ⟨name, ty, .value (.mention m)⟩
  else if ty = 10 then do
    let n ← decodeNumberOpt fields
    pure ⟨name, ty, .value (.num n)⟩
  else
    pure ⟨name, ty, .value (.unknown ⟨name, ty, .jobj fields⟩)⟩

mutual

/-- UnknownCommandOption.UnmarshalJSON (command.go): dispatch on the
discriminant; subcommands and groups recurse, every other discriminant is
handled by the non-recursive `decodeLeaf` arm. -/
def decodeUnknownOpt : Json → Except DecError DecodedUnknown
  | .jobj fields => do
    let name ← getString fields "name"
    let ty ← getNat fields "type"
    if ty = 1 then do
      let s ← decodeSub fields
      pure ⟨name, ty, .sub s⟩
    else if ty = 2 then do
      let g ← decodeGroup fields
      pure ⟨name, ty, .group g⟩
    else decodeLeaf fields name ty
  | _ => .error (.malformed "failed to unmarshal unknown")
termination_by b => sizeOf b
decreasing_by
  all_goals simp
  all_goals omega

/-- SubcommandOption.UnmarshalJSON (command.go): parse the raw shape and all
children, check the discriminant, then type-check every child against the
leaf-value capability. -/
def decodeSub (fields : JObj) : Except DecError SubcommandOption := do
  let name ← getString fields "name"
  let desc ← getString fields "description"
  let req ← getBool fields "required"
  let ty ← getNat fields "type"
  let decoded ←
    match h : jlookup fields "options" with
    | none => Except.ok []
    | some .jnull => Except.ok []
    | some (.jarr children) => decodeUnknownList children
    | some _ => Except.error (.malformed "options: cannot unmarshal into array")
  if ty ≠ 1 then
    Except.error (.malformed "unexpected (not SubcommandOption) type")
  else do
    let vals ← assertValues decoded
    pure ⟨name, desc, req, vals⟩
termination_by sizeOf fields
decreasing_by
  have h1 : sizeOf (Json.jarr children) < sizeOf fields := jlookup_sizeOf h
  simp at h1
  omega

/-- Default unmarshal of SubcommandGroupOption (command.go defines no custom
decoder for it): its `options` elements are each decoded through
`SubcommandOption.UnmarshalJSON`. -/
def decodeGroup (fields : JObj) : Except DecError SubcommandGroupOption := do
  let name ← getString fields "name"
  let desc ← getString fields "description"
  let req ← getBool fields "required"
  let subs ←
    match h : jlookup fields "options" with
    | none => Except.ok []
    | some .jnull => Except.ok []
    | some (.jarr children) => decodeSubList children
    | some _ => Except.error (.malformed "options: cannot unmarshal into array")
  pure ⟨name, desc, req, subs⟩
termination_by sizeOf fields
decreasing_by
  have h1 : sizeOf (Json.jarr children) < sizeOf fields := jlookup_sizeOf h
  simp at h1
  omega

/-- Decode a `[]UnknownCommandOption` wire array element by element. -/
def decodeUnknownList : List Json → Except DecError (List DecodedUnknown)
  | [] => .ok []
  | c :: rest => do
    let u ← decodeUnknownOpt c
    let us ← decodeUnknownList rest
    pure (u :: us)
termination_by l => sizeOf l
decreasing_by
  all_goals simp
  all_goals omega

/-- Decode a `[]*SubcommandOption` wire array element by element (each
element goes through `SubcommandOption.UnmarshalJSON`). -/
def decodeSubList : List Json → Except DecError (List SubcommandOption)
  | [] => .ok []
  | c :: rest => do
    let s ←
      match c with
      | .jobj f => decodeSub f
      | _ => Except.error (.malformed "subcommand: cannot unmarshal into object")
    let ss ← decodeSubList rest
    pure (s :: ss)
termination_by l => sizeOf l
decreasing_by
  all_goals simp
  all_goals omega

end

/-- CommandOptions.UnmarshalJSON (command.go): decode the array into
`UnknownCommandOption`s and keep each one's materialized `data`; an empty
result is the nil slice. -/
def decodeCommandOptions : Json → Except DecError (List CommandOption)
  | .jnull => .ok []
  | .jarr xs => do
    let ds ← decodeUnknownList xs
    pure (ds.map (fun d => d.data))
  | _ => .error (.malformed "options: cannot unmarshal into array")

/-- The `options` field of a Command wire object: the custom
`CommandOptions.UnmarshalJSON` runs only when the key is present; an absent
key leaves the nil slice. -/
def decodeOptionsField (fields : JObj) : Except DecError (List CommandOption) :=
  match jlookup fields "options" with
  | none => .ok []
  | some j => decodeCommandOptions j

/-- Command.UnmarshalJSON (command.go): parse the wire object, invert the
`default_permission` polarity, and default the invocation-source
discriminant to 1 (chat input) when it is zero. -/
def decodeCommand : Json → Except DecError Command
  | .jobj fields => do
    let id ← getSnowflake fields "id"
    let ty ← getNat fields "type"
    let app ← getSnowflake fields "application_id"
    let guild ← getSnowflake fields "guild_id"
    let name ← getString fields "name"
    let desc ← getString fields "description"
    let opts ← decodeOptionsField fields
    let dp ← getBool fields "default_permission"
    let ver ← getSnowflake fields "version"
    pure { id := id, type := if ty = 0 then 1 else ty, appID := app,
           guildID := guild, name := name, description := desc,
           options := opts, noDefaultPermission := !dp, version := ver }
  | _ => .error (.malformed "command: cannot unmarshal into object")

/-! ## Encoders

`MarshalJSON` for SubcommandOption, SubcommandGroupOption, StringOption,
IntegerOption, BooleanOption and UserOption is generated (command.go lines
508-580) and injects the `type` discriminant first.  ChannelOption,
RoleOption, MentionableOption, NumberOption and UnknownCommandOption have no
custom marshaler in the source, so they serialize by Go's default struct
marshaling: exported tagged fields only, in declaration order, without any
`type` field (and without the unexported preserved raw blob).  `omitempty`
fields are omitted when the slice is empty. -/

/-- Emit an optional (`omitempty`) field. -/
def optField (cond : Bool) (k : String) (v : Json) : JObj :=
  if cond then [(k, v)] else []

/-- Marshal a StringChoice. -/
def encodeStringChoice (c : StringChoice) : Json :=
  .jobj [("name", .jstr c.name), ("value", .jstr c.value)]

/-- Marshal an IntegerChoice. -/
def encodeIntegerChoice (c : IntegerChoice) : Json :=
  .jobj [("name", .jstr c.name), ("value", .jnum c.value)]

/-- Marshal a BooleanChoice. -/
def encodeBooleanChoice (c : BooleanChoice) : Json :=
  .jobj [("name", .jstr c.name), ("value", .jbool c.value)]

/-- Marshal a snowflake-valued choice (tag `value,string`). -/
def encodeSnowflakeChoice (name : String) (value : Nat) : Json :=
  .jobj [("name", .jstr name), ("value", .jstr (toString value))]

/-- Marshal a NumberChoice. -/
def encodeNumberChoice (c : NumberChoice) : Json :=
  .jobj [("name", .jstr c.name), ("value", .jnum c.value)]

/-- Generated marshaler for StringOption: the `type` field first, then the
struct's fields. -/
def encodeStringOpt (s : StringOption) : Json :=
  .jobj ([("type", .jnum 3), ("name", .jstr s.optionName),
          ("description", .jstr s.description), ("required", .jbool s.required)]
    ++ optField (!s.choices.isEmpty) "choices"
         (.jarr (s.choices.map encodeStringChoice))
    ++ [("autocomplete", .jbool s.autocomplete)])

/-- Generated marshaler for IntegerOption. -/
def encodeIntegerOpt (i : IntegerOption) : Json :=
  .jobj ([("type", .jnum 4), ("name", .jstr i.optionName),
          ("description", .jstr i.description), ("required", .jbool i.required)]
    ++ optField (!i.choices.isEmpty) "choices"
         (.jarr (i.choices.map encodeIntegerChoice)))

/-- Generated marshaler for BooleanOption. -/
def encodeBooleanOpt (b : BooleanOption) : Json :=
  .jobj ([("type", .jnum 5), ("name", .jstr b.optionName),
          ("description", .jstr b.description), ("required", .jbool b.required)]
    ++ optField (!b.choices.isEmpty) "choices"
         (.jarr (b.choices.map encodeBooleanChoice)))

/-- Generated marshaler for UserOption. -/
def encodeUserOpt (u : UserOption) : Json :=
  .jobj ([("type", .jnum 6), ("name", .jstr u.optionName),
          ("description", .jstr u.description), ("required", .jbool u.required)]
    ++ optField (!u.choices.isEmpty) "choices"
         (.jarr (u.choices.map (fun c => encodeSnowflakeChoice c.name c.value))))

/-- Default marshal of ChannelOption: no generated marshaler exists for it in
the source, so no `type` discriminant is emitted. -/
def encodeChannelOpt (c : ChannelOption) : Json :=
  .jobj ([("name", .jstr c.optionName), ("description", .jstr c.description),
          ("required", .jbool c.required)]
    ++ optField (!c.choices.isEmpty) "choices"
         (.jarr (c.choices.map (fun ch => encodeSnowflakeChoice ch.name ch.value)))
    ++ optField (!c.channelTypes.isEmpty) "channel_types"
         (.jarr (c.channelTypes.map (fun n => .jnum (Int.ofNat n)))))

/-- Default marshal of RoleOption: no generated marshaler exists for it in
the source, so no `type` discriminant is emitted. -/
def encodeRoleOpt (r : RoleOption) : Json :=
  .jobj ([("name", .jstr r.optionName), ("description", .jstr r.description),
          ("required", .jbool r.required)]
    ++ optField (!r.choices.isEmpty) "choices"
         (.jarr (r.choices.map (fun c => encodeSnowflakeChoice c.name c.value))))

/-- Default marshal of MentionableOption: no generated marshaler exists for
it in the source, so no `type` discriminant is emitted. -/
def encodeMentionableOpt (m : MentionableOption) : Json :=
  .jobj ([("name", .jstr m.optionName), ("description", .jstr m.description),
          ("required", .jbool m.required)]
    ++ optField (!m.choices.isEmpty) "choices"
         (.jarr (m.choices.map (fun c => encodeSnowflakeChoice c.name c.value))))

/-- Default marshal of NumberOption: no generated marshaler exists for it in
the source, so no `type` discriminant is emitted. -/
def encodeNumberOpt (n : NumberOption) : Json :=
  .jobj ([("name", .jstr n.optionName), ("description", .jstr n.description),
          ("required", .jbool n.required)]
    ++ optField (!n.choices.isEmpty) "choices"
         (.jarr (n.choices.map encodeNumberChoice)))

/-- Default marshal of UnknownCommandOption: only the exported tagged fields
(`name`, `type`) are emitted; the unexported preserved raw blob is not. -/
def encodeUnknownOpt (u : UnknownOpt) : Json :=
  .jobj [("name", .jstr u.optionName), ("type", .jnum (Int.ofNat u.optionType))]

/-- Marshal any CommandOptionValue through the dynamic type's marshaler. -/
def encodeOptionValue : OptionValue → Json
  | .str s => encodeStringOpt s
  | .int i => encodeIntegerOpt i
  | .bool b => encodeBooleanOpt b
  | .user u => encodeUserOpt u
  | .channel c => encodeChannelOpt c
  | .role r => encodeRoleOpt r
  | .mention m => encodeMentionableOpt m
  | .num n => encodeNumberOpt n
  | .unknown u => encodeUnknownOpt u

/-- Generated marshaler for SubcommandOption (`type` first, `options` has no
`omitempty`). -/
def encodeSub (s : SubcommandOption) : Json :=
  .jobj ([("type", .jnum 1), ("name", .jstr s.optionName),
          ("description", .jstr s.description), ("required", .jbool s.required),
          ("options", .jarr (s.options.map encodeOptionValue))])

/-- Generated marshaler for SubcommandGroupOption (`type` first, its
subcommands serialize under the `options` key with no `omitempty`). -/
def encodeGroup (g : SubcommandGroupOption) : Json :=
  .jobj ([("type", .jnum 2), ("name", .jstr g.optionName),
          ("description", .jstr g.description), ("required", .jbool g.required),
          ("options", .jarr (g.subcommands.map encodeSub))])

/-- Marshal any CommandOption through the dynamic type's marshaler. -/
def encodeCommandOption : CommandOption → Json
  | .sub s => encodeSub s
  | .group g => encodeGroup g
  | .value v => encodeOptionValue v

/-- Command.MarshalJSON (command.go): the embedded RawCommand's fields in
declaration order (with `omitempty` on `type`, `guild_id`, `options` and
`version`), then the polarity-inverted `default_permission` flag, which is
always emitted. -/
def encodeCommandFields (c : Command) : JObj :=
  [("id", .jnum (Int.ofNat c.id))]
    ++ optField (c.type != 0) "type" (.jnum (Int.ofNat c.type))
    ++ [("application_id", .jnum (Int.ofNat c.appID))]
    ++ optField (c.guildID != 0) "guild_id" (.jnum (Int.ofNat c.guildID))
    ++ [("name", .jstr c.name), ("description", .jstr c.description)]
    ++ optField (!c.options.isEmpty) "options"
         (.jarr (c.options.map encodeCommandOption))
    ++ optField (c.version != 0) "version" (.jnum (Int.ofNat c.version))
    ++ [("default_permission", .jbool (!c.noDefaultPermission))]

/-- Command.MarshalJSON as a JSON value. -/
def encodeCommand (c : Command) : Json :=
  .jobj (encodeCommandFields c)

/-! ## Transport connection (`internal/wsutil/conn.go`)

The websocket driver (`nhooyr.io/websocket`) is external to the sources;
only the constants and operations the `Conn` methods rely on are modelled:
close status codes, the per-read outcome, and the dial outcome.  Error
messages and frame payloads are abstract; a close reason is a byte sequence
(Go strings are byte strings and `msg[:125]` slices bytes). -/

/-- websocket.StatusNormalClosure. -/
def statusNormalClosure : Nat := 1000

/-- websocket.StatusProtocolError. -/
def statusProtocolError : Nat := 1002

/-- Conn.Close (conn.go lines 137-148): nil error closes with the normal
classification and an empty reason; a non-nil error closes with the
protocol-error classification and the error message truncated to 125 bytes.
The function is total: an overlong message is truncated, never rejected. -/
def connClose (err : Option (List Nat)) : Nat × List Nat :=
  match err with
  | none => (statusNormalClosure, [])
  | some e =>
    let msg := if e.length > 125 then e.take 125 else e
    (statusProtocolError, msg)

/-- Event (wsutil): either a decoded frame payload or a classified error,
never both. -/
structure Event where
  data : Option (List Nat)
  error : Option String
deriving DecidableEq, Repr

/-- Outcome of one `readAll` call inside the read loop: a payload, or an
error whose `websocket.CloseStatus` is `some code` for a closure and `none`
(CloseStatus = -1) for a non-closure read/decode failure. -/
inductive ReadResult where
  | success : List Nat → ReadResult
  | failure : String → Option Nat → ReadResult
deriving DecidableEq, Repr

/-- Whether a read outcome is a recognized closure. -/
def isClosure : ReadResult → Bool
  | .failure _ (some _) => true
  | _ => false

/-- The single event the loop emits for a non-closure read outcome. -/
def eventFor : ReadResult → Event
  | .success b => ⟨some b, none⟩
  | .failure msg _ => ⟨none, some ("WS error: " ++ msg)⟩

/-- Conn.readLoop (conn.go lines 80-102) over a sequence of successive
`readAll` outcomes: a successful read emits one payload event and continues;
a non-closure failure emits one non-fatal error event and continues; an
abnormal closure emits exactly one terminal error event and exits; a normal
closure exits without emitting.  The returned list is the sequence pushed
into the event channel. -/
def readLoop : List ReadResult → List Event
  | [] => []
  | .success b :: rest => ⟨some b, none⟩ :: readLoop rest
  | .failure msg none :: rest =>
    ⟨none, some ("WS error: " ++ msg)⟩ :: readLoop rest
  | .failure msg (some code) :: _ =>
    if code ≠ statusNormalClosure then [⟨none, some ("WS fatal: " ++ msg)⟩]
    else []

/-- The `Conn` handle state relevant to `Dial`: whether the underlying
websocket connection is established, and whether the read worker was
started. -/
structure ConnState where
  conn : Option Unit
  readLoopStarted : Bool
deriving DecidableEq, Repr

/-- A method call on the websocket handle that dereferences it
(`SetReadLimit`): on a nil handle it is a nil-pointer dereference, which
crashes the program. -/
def setReadLimit (s : ConnState) : Except String ConnState :=
  match s.conn with
  | none => .error "nil pointer dereference in SetReadLimit"
  | some _ => .ok s

/-- Conn.Dial (conn.go lines 57-74): `websocket.Dial` assigns the handle
(nil on failure) and the error; the source then unconditionally calls
`SetReadLimit` on the handle and starts the read loop before returning the
dial error.  `dialErr` is the outcome of the underlying `websocket.Dial`. -/
def connDial (s : ConnState) (dialErr : Option String) :
    Except String (ConnState × Option String) := do
  let s1 : ConnState :=
    { s with conn := if dialErr.isSome then none else some () }
  let s2 ← setReadLimit s1
  let s3 := { s2 with readLoopStarted := true }
  pure (s3, dialErr)

/-! ## Session lifecycle (session package) -/

/-- sessionState: the stop signal (`hstop` channel) and the one-shot guard
(`wstop sync.Once`), plus a counter of calls made to the underlying
`Gateway.Close` (the gateway itself is external to the sources; closing it
is modelled as the observable effect of one underlying-connection close
call). -/
structure SessionState where
  hstopClosed : Bool
  wstopUsed : Bool
  gatewayCloseCalls : Nat
deriving DecidableEq, Repr

/-- sessionState.Reset (called at the start of Open): a fresh stop signal
and a fresh one-shot guard. -/
def sessionReset (s : SessionState) : SessionState :=
  { s with hstopClosed := false, wstopUsed := false }

/-- Session.Close: `s.wstop.Do(func() { close(s.hstop) })` — the one-shot
guard protects only the closing of the stop signal — followed by an
unconditional `return s.Gateway.Close()`. -/
def sessionClose (s : SessionState) : SessionState :=
  let s1 :=
    if s.wstopUsed then s
    else { s with wstopUsed := true, hstopClosed := true }
  { s1 with gatewayCloseCalls := s1.gatewayCloseCalls + 1 }

/-! ## Remaining helper definitions for the stated properties -/

/-- The first decoded child that fails the leaf-value capability check. -/
def firstNonValue : List DecodedUnknown → Option DecodedUnknown
  | [] => none
  | u :: rest =>
    match asOptionValue u.data with
    | none => some u
    | some _ => firstNonValue rest

/-- The leaf values of a list of decoded children (in order). -/
def leafValues : List DecodedUnknown → List OptionValue
  | [] => []
  | u :: rest =>
    match asOptionValue u.data with
    | none => leafValues rest
    | some v => v :: leafValues rest

/-- A Subcommand wire object with the given children under `options`. -/
def subWire (name desc : String) (req : Bool) (children : List Json) : Json :=
  .jobj [("name", .jstr name), ("description", .jstr desc),
         ("required", .jbool req), ("type", .jnum 1),
         ("options", .jarr children)]

/-! ## Supporting lemmas -/

/-- Binding a success in `Except` applies the continuation. -/
@[simp] theorem ok_bind {ε : Type u} {α β : Type v} (a : α)
    (f : α → Except ε β) : (Except.ok a >>= f : Except ε β) = f a := rfl

/-- Binding an error in `Except` short-circuits. -/
@[simp] theorem error_bind {ε : Type u} {α β : Type v} (e : ε)
    (f : α → Except ε β) : (Except.error e >>= f : Except ε β) = Except.error e :=
  rfl

/-- `pure` in `Except` is `ok`. -/
@[simp] theorem pure_eq_ok {ε : Type u} {α : Type v} (a : α) :
    (pure a : Except ε α) = Except.ok a := rfl

/-- Mapping over a success in `Except` applies the function. -/
@[simp] theorem ok_map {ε : Type u} {α β : Type v} (a : α) (f : α → β) :
    (Except.ok a : Except ε α).map f = Except.ok (f a) := rfl

/-- Inversion of a successful `Except` bind. -/
theorem except_bind_ok {ε : Type u} {α β : Type v} {e : Except ε α}
    {f : α → Except ε β} {b : β} (h : e >>= f = .ok b) :
    ∃ a, e = .ok a ∧ f a = .ok b := by
  cases e with
  | error err => simp at h
  | ok a =>
    refine ⟨a, rfl, ?_⟩
    simpa using h

/-- Lookup distributes over append, first list first. -/
theorem jlookup_append (a b : JObj) (k : String) :
    jlookup (a ++ b) k =
      match jlookup a k with
      | some v => some v
      | none => jlookup b k := by
  induction a with
  | nil => simp [jlookup]
  | cons p rest ih =>
    obtain ⟨k0, v0⟩ := p
    by_cases h : k0 = k
    · simp [jlookup, h]
    · simp [jlookup, h, ih]

/-- The assertion loop succeeds with the leaf values exactly when every
child satisfies the capability, and otherwise reports the first failing
child. -/
theorem assertValues_eq (l : List DecodedUnknown) :
    assertValues l =
      match firstNonValue l with
      | some u => .error (.typeMismatch u.optionName u.data "CommandOptionValue")
      | none => .ok (leafValues l) := by
  induction l with
  | nil => rfl
  | cons u rest ih =>
    simp only [assertValues, firstNonValue, leafValues]
    cases h : asOptionValue u.data with
    | none => rfl
    | some v =>
      simp only [ih]
      cases firstNonValue rest <;> simp

/-- Inversion of a successful Command decode: the parsed discriminant,
permission flag and options determine the corresponding Command fields. -/
theorem decodeCommand_inv {fields : JObj} {c : Command}
    (h : decodeCommand (.jobj fields) = .ok c) :
    ∃ t dp opts,
      getNat fields "type" = .ok t ∧
      getBool fields "default_permission" = .ok dp ∧
      decodeOptionsField fields = .ok opts ∧
      c.type = (if t = 0 then 1 else t) ∧
      c.noDefaultPermission = !dp ∧
      c.options = opts := by
  simp only [decodeCommand] at h
  obtain ⟨id, h1, h⟩ := except_bind_ok h
  obtain ⟨t, h2, h⟩ := except_bind_ok h
  obtain ⟨app, h3, h⟩ := except_bind_ok h
  obtain ⟨guild, h4, h⟩ := except_bind_ok h
  obtain ⟨nm, h5, h⟩ := except_bind_ok h
  obtain ⟨ds, h6, h⟩ := except_bind_ok h
  obtain ⟨opts, h7, h⟩ := except_bind_ok h
  obtain ⟨dp, h8, h⟩ := except_bind_ok h
  obtain ⟨ver, h9, h⟩ := except_bind_ok h
  simp only [pure_eq_ok, Except.ok.injEq] at h
  exact ⟨t, dp, opts, h2, h8, h7, by simp [← h], by simp [← h], by simp [← h]⟩

/-- Lookup misses an optional field with a different key. -/
theorem jlookup_optField_ne {k key : String} (h : k ≠ key) (b : Bool)
    (v : Json) : jlookup (optField b k v) key = none := by
  cases b <;> simp [optField, jlookup, h]

/-- The encoded Command always carries the polarity-inverted
`default_permission` field. -/
theorem encFields_default_permission (c : Command) :
    jlookup (encodeCommandFields c) "default_permission"
      = some (.jbool (!c.noDefaultPermission)) := by
  simp [encodeCommandFields, jlookup_append, jlookup_optField_ne, jlookup]

/-- A disabled optional field emits nothing. -/
theorem optField_false (k : String) (v : Json) : optField false k v = [] := rfl

/-- The encoded Command omits the `options` key when the option list is
empty. -/
theorem encFields_options_of_empty (c : Command) (h : c.options = []) :
    jlookup (encodeCommandFields c) "options" = none := by
  simp [encodeCommandFields, jlookup_append, jlookup_optField_ne, jlookup, h,
    optField_false]

/-! ## Claim theorems -/

/-- C1: the spec's round trip `Decode(Encode(tree)) == tree` for every
Option variant requires every concrete variant's marshaler to inject its
discriminant, but the generated marshalers stop at UserOption: encoding a
RoleOption (likewise Channel, Mentionable, Number) emits no `type` field, so
decoding its encoding yields an UnknownOption instead of the original tree.
A StringOption (which has a generated marshaler) round-trips. -/
theorem command_option_marshalers_incomplete :
    decodeUnknownOpt (encodeCommandOption (.value (.str ⟨"s", "d", false, [], false⟩)))
      = .ok ⟨"s", 3, .value (.str ⟨"s", "d", false, [], false⟩)⟩
    ∧ decodeUnknownOpt (encodeCommandOption (.value (.role ⟨"r", "d", false, []⟩)))
      = .ok ⟨"r", 0, .value (.unknown ⟨"r", 0,
          .jobj [("name", .jstr "r"), ("description", .jstr "d"),
                 ("required", .jbool false)]⟩)⟩
    ∧ (decodeUnknownOpt (encodeCommandOption (.value (.role ⟨"r", "d", false, []⟩)))).map
        DecodedUnknown.data
      ≠ .ok (.value (.role ⟨"r", "d", false, []⟩)) := by
  have hstr : encodeCommandOption (.value (.str ⟨"s", "d", false, [], false⟩))
      = .jobj [("type", .jnum 3), ("name", .jstr "s"),
               ("description", .jstr "d"), ("required", .jbool false),
               ("autocomplete", .jbool false)] := rfl
  have hrole : encodeCommandOption (.value (.role ⟨"r", "d", false, []⟩))
      = .jobj [("name", .jstr "r"), ("description", .jstr "d"),
               ("required", .jbool false)] := rfl
  have h2 : decodeUnknownOpt (.jobj [("name", .jstr "r"),
        ("description", .jstr "d"), ("required", .jbool false)])
      = .ok ⟨"r", 0, .value (.unknown ⟨"r", 0,
          .jobj [("name", .jstr "r"), ("description", .jstr "d"),
                 ("required", .jbool false)]⟩)⟩ := by
    rw [decodeUnknownOpt]
    rfl
  refine ⟨?_, ?_, ?_⟩
  · rw [hstr, decodeUnknownOpt]
    rfl
  · rw [hrole]
    exact h2
  · rw [hrole, h2]
    simp

/-- C2 counterexample: a wire object with an unrecognized discriminant and
an extra field decodes as an UnknownOption preserving the raw object, but
encoding the resulting tree emits only the `name` and `type` fields, so the
original bytes are not reproduced. -/
theorem unknown_option_reencode_drops_fields :
    decodeUnknownOpt (.jobj [("name", .jstr "x"), ("type", .jnum 11),
        ("extra", .jnum 7)])
      = .ok ⟨"x", 11, .value (.unknown ⟨"x", 11,
          .jobj [("name", .jstr "x"), ("type", .jnum 11), ("extra", .jnum 7)]⟩)⟩
    ∧ encodeCommandOption (.value (.unknown ⟨"x", 11,
          .jobj [("name", .jstr "x"), ("type", .jnum 11), ("extra", .jnum 7)]⟩))
      ≠ .jobj [("name", .jstr "x"), ("type", .jnum 11), ("extra", .jnum 7)] := by
  constructor
  · rw [decodeUnknownOpt]
    rfl
  · have he : encodeCommandOption (.value (.unknown ⟨"x", 11,
          .jobj [("name", .jstr "x"), ("type", .jnum 11), ("extra", .jnum 7)]⟩))
        = .jobj [("name", .jstr "x"), ("type", .jnum 11)] := rfl
    rw [he]
    simp

/-- C2 (amended): a wire option object whose discriminant is unrecognized
(zero or at least 11) decodes successfully to an UnknownOption that
preserves the exact original object in its raw accessor; encoding that tree
emits only the `name` and `type` fields (the preserved raw object is not
re-emitted). -/
theorem unknown_option_decode_preserves_raw (fields : JObj) (name : String)
    (t : Nat) (hname : getString fields "name" = .ok name)
    (hty : getNat fields "type" = .ok t) (hout : t = 0 ∨ 11 ≤ t) :
    decodeUnknownOpt (.jobj fields)
      = .ok ⟨name, t, .value (.unknown ⟨name, t, .jobj fields⟩)⟩
    ∧ (UnknownOpt.mk name t (.jobj fields)).raw = .jobj fields
    ∧ encodeCommandOption (.value (.unknown ⟨name, t, .jobj fields⟩))
      = .jobj [("name", .jstr name), ("type", .jnum (Int.ofNat t))] := by
  refine ⟨?_, rfl, rfl⟩
  rw [decodeUnknownOpt, hname, hty]
  simp only [ok_bind]
  rw [if_neg (by omega : ¬ t = 1), if_neg (by omega : ¬ t = 2)]
  unfold decodeLeaf
  rw [if_neg (by omega : ¬ t = 3), if_neg (by omega : ¬ t = 4),
      if_neg (by omega : ¬ t = 5), if_neg (by omega : ¬ t = 6),
      if_neg (by omega : ¬ t = 7), if_neg (by omega : ¬ t = 8),
      if_neg (by omega : ¬ t = 9), if_neg (by omega : ¬ t = 10)]
  rfl

/-- Witness for the amended C2 theorem at a concrete wire object with
discriminant 42 and an extra field. -/
theorem unknown_option_decode_preserves_raw_witness :
    decodeUnknownOpt (.jobj [("name", .jstr "x"), ("type", .jnum 42),
        ("y", .jbool true)])
      = .ok ⟨"x", 42, .value (.unknown ⟨"x", 42,
          .jobj [("name", .jstr "x"), ("type", .jnum 42), ("y", .jbool true)]⟩)⟩ :=
  (unknown_option_decode_preserves_raw
    [("name", .jstr "x"), ("type", .jnum 42), ("y", .jbool true)]
    "x" 42 rfl rfl (by decide)).1

/-- C3 counterexample: three sequential `Session.Close` calls right after an
Open perform three underlying `Gateway.Close` calls, not one. -/
theorem session_close_three_underlying_closes :
    (sessionClose (sessionClose (sessionClose
        (sessionReset ⟨true, true, 0⟩)))).gatewayCloseCalls = 3
    ∧ ¬ (sessionClose (sessionClose (sessionClose
        (sessionReset ⟨true, true, 0⟩)))).gatewayCloseCalls = 1 := by
  decide

/-- C3 (amended): the one-shot guard covers only the stop signal — the
first `Close` after an Open closes the stop signal and marks the guard
used, while every call (first or repeated) invokes the underlying
connection close, so three calls perform three underlying closes. -/
theorem session_close_guard_covers_stop_only (s0 : SessionState) :
    (sessionClose (sessionReset s0)).hstopClosed = true
    ∧ (sessionClose (sessionReset s0)).wstopUsed = true
    ∧ (sessionClose (sessionReset s0)).gatewayCloseCalls
        = s0.gatewayCloseCalls + 1
    ∧ sessionClose (sessionClose (sessionReset s0))
        = ⟨true, true, s0.gatewayCloseCalls + 2⟩
    ∧ (sessionClose (sessionClose (sessionClose
        (sessionReset s0)))).gatewayCloseCalls = s0.gatewayCloseCalls + 3 := by
  simp [sessionReset, sessionClose]

/-- C5: `Close nil` uses the normal-closure status with an empty reason;
`Close` of an error uses the protocol-error status with the message
truncated to its first 125 bytes, and the result is always defined (an
overlong message is truncated, never rejected). -/
theorem close_code_classification (msg : List Nat) :
    connClose none = (statusNormalClosure, [])
    ∧ (connClose (some msg)).1 = statusProtocolError
    ∧ (connClose (some msg)).2 = msg.take 125
    ∧ (connClose (some msg)).2.length ≤ 125 := by
  refine ⟨rfl, rfl, ?_, ?_⟩
  · by_cases h : msg.length > 125
    · simp [connClose, h]
    · simp only [connClose]
      rw [if_neg h]
      exact (List.take_of_length_le (by omega)).symm
  · by_cases h : msg.length > 125
    · simp [connClose, h, List.length_take]
    · simp only [connClose]
      rw [if_neg h]
      omega

/-- C9: when the underlying websocket dial fails, `Conn.Dial` does not
return the dial error — it first calls `SetReadLimit` on the nil connection
handle, a nil-pointer dereference; a successful dial establishes the handle
and starts the read loop. -/
theorem dial_failure_crashes :
    connDial ⟨none, false⟩ (some "connection refused")
      = .error "nil pointer dereference in SetReadLimit"
    ∧ connDial ⟨none, false⟩ none = .ok (⟨some (), true⟩, none) :=
  ⟨rfl, rfl⟩

/-- C4: decoding a Subcommand wire object type-checks every decoded child
against the leaf-value capability: the first child decoding to a
Subcommand or SubcommandGroup (the variants lacking the capability) is
reported in a typeMismatch error carrying its name, its decoded value and
the expected capability name, while an options array whose children all
decode to leaf values succeeds. -/
theorem subcommand_child_typecheck (name desc : String) (req : Bool)
    (children : List Json) (decoded : List DecodedUnknown)
    (hdec : decodeUnknownList children = .ok decoded) :
    (∀ u, firstNonValue decoded = some u →
      decodeUnknownOpt (subWire name desc req children)
        = .error (.typeMismatch u.optionName u.data "CommandOptionValue"))
    ∧ (firstNonValue decoded = none →
      decodeUnknownOpt (subWire name desc req children)
        = .ok ⟨name, 1, .sub ⟨name, desc, req, leafValues decoded⟩⟩) := by
  have hmain : decodeUnknownOpt (subWire name desc req children)
      = (match firstNonValue decoded with
         | some u =>
           Except.error (.typeMismatch u.optionName u.data "CommandOptionValue")
         | none =>
           Except.ok ⟨name, 1, .sub ⟨name, desc, req, leafValues decoded⟩⟩) := by
    rw [subWire, decodeUnknownOpt, decodeSub]
    change ((decodeUnknownList children >>= fun ds =>
        assertValues ds >>= fun vals =>
          (pure (SubcommandOption.mk name desc req vals) :
            Except DecError SubcommandOption)) >>= fun s =>
        (pure (DecodedUnknown.mk name 1 (CommandOption.sub s)) :
          Except DecError DecodedUnknown)) = _
    rw [hdec]
    simp only [ok_bind]
    rw [assertValues_eq]
    cases hf : firstNonValue decoded with
    | some u => simp
    | none => simp
  constructor
  · intro u hu
    rw [hmain, hu]
  · intro hn
    rw [hmain, hn]

/-- Witness for C4 at a concrete Subcommand wire object whose second child
is itself a Subcommand. -/
theorem subcommand_child_typecheck_witness :
    decodeUnknownOpt (subWire "s" "d" true
        [.jobj [("name", .jstr "a"), ("type", .jnum 3)],
         .jobj [("name", .jstr "inner"), ("type", .jnum 1)]])
      = .error (.typeMismatch "inner"
          (.sub ⟨"inner", "", false, []⟩) "CommandOptionValue") := by
  have h1 : decodeUnknownOpt (.jobj [("name", .jstr "a"), ("type", .jnum 3)])
      = .ok ⟨"a", 3, .value (.str ⟨"a", "", false, [], false⟩)⟩ := by
    rw [decodeUnknownOpt]
    rfl
  have h2 : decodeUnknownOpt (.jobj [("name", .jstr "inner"), ("type", .jnum 1)])
      = .ok ⟨"inner", 1, .sub ⟨"inner", "", false, []⟩⟩ := by
    rw [decodeUnknownOpt, decodeSub]
    rfl
  have hdec : decodeUnknownList
      [.jobj [("name", .jstr "a"), ("type", .jnum 3)],
       .jobj [("name", .jstr "inner"), ("type", .jnum 1)]]
      = .ok [⟨"a", 3, .value (.str ⟨"a", "", false, [], false⟩)⟩,
             ⟨"inner", 1, .sub ⟨"inner", "", false, []⟩⟩] := by
    rw [decodeUnknownList, h1, decodeUnknownList, h2, decodeUnknownList]
    rfl
  exact (subcommand_child_typecheck "s" "d" true _ _ hdec).1
    ⟨"inner", 1, .sub ⟨"inner", "", false, []⟩⟩ rfl

/-- C6: in the read loop, every frame before the first closure yields
exactly one event — a payload event for a successful read, one non-fatal
error event for a non-closure failure — in order; the first closure ends
the loop, adding exactly one terminal error event when abnormal and none
when normal, and nothing after the closure is processed. -/
theorem read_loop_event_discipline (pre : List ReadResult)
    (hpre : ∀ r ∈ pre, isClosure r = false) (msg : String) (code : Nat)
    (post : List ReadResult) :
    readLoop pre = pre.map eventFor
    ∧ readLoop (pre ++ .failure msg (some code) :: post)
      = pre.map eventFor
        ++ (if code = statusNormalClosure then []
            else [⟨none, some ("WS fatal: " ++ msg)⟩]) := by
  induction pre with
  | nil =>
    refine ⟨rfl, ?_⟩
    by_cases hc : code = statusNormalClosure <;> simp [readLoop, hc]
  | cons r rest ih =>
    have hr : isClosure r = false := hpre r (by simp)
    obtain ⟨ih1, ih2⟩ := ih (fun x hx => hpre x (by simp [hx]))
    cases r with
    | success b => simp [readLoop, eventFor, ih1, ih2]
    | failure m st =>
      cases st with
      | none => simp [readLoop, eventFor, ih1, ih2]
      | some c => simp [isClosure] at hr

/-- Witness for C6: a payload frame and a transient failure, then an
abnormal closure followed by an unread frame. -/
theorem read_loop_event_discipline_witness :
    readLoop [.success [1], .failure "bad frame" none,
              .failure "closed" (some 1011), .success [9]]
      = [⟨some [1], none⟩, ⟨none, some ("WS error: " ++ "bad frame")⟩,
         ⟨none, some ("WS fatal: " ++ "closed")⟩] := by
  have h := (read_loop_event_discipline
      [.success [1], .failure "bad frame" none] (by decide)
      "closed" 1011 [.success [9]]).2
  simpa [eventFor] using h

/-- C7: the encoder always emits `default_permission` as the negation of
the local NoDefaultPermission flag, and a successful decode of the encoding
restores the flag unchanged (for both polarities). -/
theorem default_permission_polarity (c : Command) :
    jlookup (encodeCommandFields c) "default_permission"
      = some (.jbool (!c.noDefaultPermission))
    ∧ ∀ c', decodeCommand (encodeCommand c) = .ok c' →
        c'.noDefaultPermission = c.noDefaultPermission := by
  refine ⟨encFields_default_permission c, ?_⟩
  intro c' h
  rw [encodeCommand] at h
  obtain ⟨t, dp, opts, h1, h2, h3, h4, h5, h6⟩ := decodeCommand_inv h
  have hdp : getBool (encodeCommandFields c) "default_permission"
      = .ok (!c.noDefaultPermission) := by
    simp [getBool, encFields_default_permission c]
  rw [hdp] at h2
  simp only [Except.ok.injEq] at h2
  subst h2
  simp [h5]

/-- Witness for C7 at a Command with the flag set. -/
theorem default_permission_polarity_witness :
    (Command.mk 0 1 0 0 "probe" "d" [] true 0).noDefaultPermission
      = (Command.mk 0 0 0 0 "probe" "d" [] true 0).noDefaultPermission :=
  (default_permission_polarity ⟨0, 0, 0, 0, "probe", "d", [], true, 0⟩).2
    ⟨0, 1, 0, 0, "probe", "d", [], true, 0⟩ rfl

/-- C8: a Command wire object with the `type` discriminant absent or zero
decodes to the chat-input variant (1); any non-zero discriminant is
preserved unchanged. -/
theorem command_type_defaulting (fields : JObj) (c : Command)
    (h : decodeCommand (.jobj fields) = .ok c) :
    ((jlookup fields "type" = none ∨ jlookup fields "type" = some (.jnum 0)) →
        c.type = 1)
    ∧ (∀ k : Nat, k ≠ 0 → jlookup fields "type" = some (.jnum (k : Int)) →
        c.type = k) := by
  obtain ⟨t, dp, opts, h1, h2, h3, h4, h5, h6⟩ := decodeCommand_inv h
  constructor
  · intro hl
    have ht : t = 0 := by
      rcases hl with hl | hl <;> simp only [getNat, hl] at h1 <;> simp at h1 <;>
        omega
    rw [h4]
    simp [ht]
  · intro k hk hl
    have ht : t = k := by
      simp only [getNat, hl] at h1
      rw [if_neg (show ¬ ((k : Int) < 0) by omega)] at h1
      simpa using h1.symm
    rw [h4, ht, if_neg hk]

/-- Witness for C8: the empty wire object decodes with type 1. -/
theorem command_type_defaulting_witness :
    (Command.mk 0 1 0 0 "" "" [] true 0).type = 1 :=
  (command_type_defaulting [] ⟨0, 1, 0, 0, "", "", [], true, 0⟩ rfl).1
    (Or.inl rfl)

/-- C10: decoding a Command wire object whose `options` field is the empty
array gives exactly the same result as decoding the identical object
without the field; on success the option list is empty and re-encoding
omits the `options` key. -/
theorem options_empty_equals_absent (fields : JObj)
    (h : jlookup fields "options" = none) :
    decodeCommand (.jobj (("options", Json.jarr []) :: fields))
      = decodeCommand (.jobj fields)
    ∧ ∀ c, decodeCommand (.jobj fields) = .ok c →
        c.options = [] ∧ jlookup (encodeCommandFields c) "options" = none := by
  constructor
  · have hopts : decodeOptionsField (("options", Json.jarr []) :: fields)
        = .ok [] := by
      simp [decodeOptionsField, jlookup, decodeCommandOptions, decodeUnknownList]
    have hopts2 : decodeOptionsField fields = .ok [] := by
      simp [decodeOptionsField, h]
    have hget : ∀ k : String, k ≠ "options" →
        jlookup (("options", Json.jarr []) :: fields) k = jlookup fields k := by
      intro k hk
      simp only [jlookup]
      rw [if_neg (Ne.symm hk)]
    simp only [decodeCommand, getSnowflake, getNat, getString, getBool,
      hopts, hopts2, hget "id" (by decide), hget "type" (by decide),
      hget "application_id" (by decide), hget "guild_id" (by decide),
      hget "name" (by decide), hget "description" (by decide),
      hget "default_permission" (by decide), hget "version" (by decide)]
  · intro c hc
    obtain ⟨t, dp, opts, h1, h2, h3, h4, h5, h6⟩ := decodeCommand_inv hc
    have hnil : opts = [] := by
      rw [decodeOptionsField, h] at h3
      simpa using h3.symm
    refine ⟨by rw [h6, hnil], encFields_options_of_empty c (by rw [h6, hnil])⟩

/-- Witness for C10 at a one-field wire object. -/
theorem options_empty_equals_absent_witness :
    decodeCommand (.jobj [("options", Json.jarr []), ("name", Json.jstr "a")])
      = decodeCommand (.jobj [("name", Json.jstr "a")]) :=
  (options_empty_equals_absent [("name", Json.jstr "a")] rfl).1
